import Mathlib

/-!
Verification of the nigeria-tax-calculator core against its source
(`src/unnamed/part_003`, first revision, lines 1-201; data model from
`src/types.ts`).  JavaScript `number` arithmetic is modelled with exact
rational arithmetic over `ℚ`; JavaScript strings are modelled as `List Char`.
-/

namespace NigeriaTax

/-- One marginal tax band of the `bands` table (part_003 lines 24-31).
`limit = none` models the JavaScript `Infinity` limit of the last band. -/
structure Band where
  limit : Option ℚ
  rate : ℚ
deriving Repr, DecidableEq

/-- Models `Math.min(remaining, band.limit)` at part_003 line 35, where
`none` plays the role of `Infinity` (so the minimum is `remaining`). -/
def bandMin (remaining : ℚ) : Option ℚ → ℚ
  | none => remaining
  | some l => min remaining l

/-- The fixed ordered band table (part_003 lines 24-31). -/
def bands : List Band :=
  [⟨some 300000, 7/100⟩, ⟨some 300000, 11/100⟩, ⟨some 500000, 15/100⟩,
   ⟨some 500000, 19/100⟩, ⟨some 1600000, 21/100⟩, ⟨none, 24/100⟩]

/-- The iterations of the band loop (part_003 lines 33-38): one pair
`(taxableAtThisBand, band.rate)` per executed iteration, in order.  The loop
breaks as soon as `remaining ≤ 0`. -/
def runBands : List Band → ℚ → List (ℚ × ℚ)
  | [], _ => []
  | b :: bs, remaining =>
    if remaining ≤ 0 then []
    else
      let taxableAtThisBand := bandMin remaining b.limit
      (taxableAtThisBand, b.rate) :: runBands bs (remaining - taxableAtThisBand)

/-- The accumulation `tax += taxableAtThisBand * band.rate` (part_003 line 36)
over the executed loop iterations, starting from `tax = 0` (line 21). -/
def bandTax (steps : List (ℚ × ℚ)) : ℚ :=
  steps.foldl (fun t p => t + p.1 * p.2) 0

/-- The record returned by `calculateNigerianPIT` (`types.ts` `TaxBreakdown`,
built at part_003 lines 40-46). -/
structure TaxBreakdown where
  grossIncome : ℚ
  consolidatedRelief : ℚ
  taxableIncome : ℚ
  totalTax : ℚ
  effectiveRate : ℚ
deriving Repr, DecidableEq

/-- `calculateNigerianPIT` (part_003 lines 10-47). -/
def calculateNigerianPIT (grossIncome : ℚ) : TaxBreakdown :=
  let baseRelief := max 200000 (grossIncome * (1/100))
  let variableRelief := grossIncome * (20/100)
  let consolidatedRelief := baseRelief + variableRelief
  let taxableIncome := max 0 (grossIncome - consolidatedRelief)
  let tax := bandTax (runBands bands taxableIncome)
  { grossIncome := grossIncome
    consolidatedRelief := consolidatedRelief
    taxableIncome := taxableIncome
    totalTax := tax
    effectiveRate := if grossIncome > 0 then tax / grossIncome * 100 else 0 }

/-- The `ModelProvider` enum from `types.ts`. -/
inductive ModelProvider
  | GEMINI_FLASH
  | GEMINI_PRO
  | GROK_BETA
deriving Repr, DecidableEq

/-- JSON values, the possible results of `JSON.parse`. -/
inductive Json
  | null
  | bool (b : Bool)
  | num (q : ℚ)
  | str (s : List Char)
  | arr (elems : List Json)
  | obj (members : List (List Char × Json))

/-- Outcome of one `extractTransactionsFromDocument` call: the resolved JSON
payload (the code casts it to `Transaction[]` without validation, and the
empty-retry path resolves with a literal `[]`), or the message of the thrown
`Error`. -/
inductive ExtractResult
  | success (payload : Json)
  | failure (message : List Char)

/-- Models JavaScript `String.prototype.includes` (used as
`errStr.includes(..)` at part_003 lines 179-191) over `List Char`. -/
def containsSub (hay needle : List Char) : Bool :=
  hay.tails.any (fun t => needle.isPrefixOf t)

/-- Models one global regexp replacement by the empty string
(`jsonText.replace(/PAT/g, ...)`, part_003 line 155): delete every
non-overlapping occurrence of `pat`, scanning left to right.  The `fuel`
argument only forces termination; `fuel = s.length` always suffices because
each step either emits or deletes at least one character, so the `fuel = 0`
fallback is never reached from `removeOccurrences`. -/
def removeOccurrencesAux (pat : List Char) : ℕ → List Char → List Char
  | 0, s => s
  | _, [] => []
  | fuel + 1, a :: rest =>
    if pat.isPrefixOf (a :: rest) ∧ pat ≠ [] then
      removeOccurrencesAux pat fuel ((a :: rest).drop pat.length)
    else
      a :: removeOccurrencesAux pat fuel rest

def removeOccurrences (pat s : List Char) : List Char :=
  removeOccurrencesAux pat s.length s

/-- Whitespace removed by JavaScript `String.prototype.trim` (ASCII part). -/
def isJsWhitespace (c : Char) : Bool :=
  c = ' ' || c = '\t' || c = '\n' || c = '\r' || c = '\x0b' || c = '\x0c'

/-- Models `String.prototype.trim` (part_003 line 155). -/
def trimChars (s : List Char) : List Char :=
  ((s.dropWhile isJsWhitespace).reverse.dropWhile isJsWhitespace).reverse

/-- Line 155 of part_003: strip markdown code fences and trim. -/
def cleanResponseText (jsonText : List Char) : List Char :=
  trimChars (removeOccurrences "```".data
    (removeOccurrences "```json".data jsonText))

/-- Models `String.prototype.lastIndexOf` for a single character, with `none`
for the `-1` result (part_003 line 159). -/
def lastIndexOfCh : List Char → Char → Option ℕ
  | [], _ => none
  | a :: rest, ch =>
    match lastIndexOfCh rest ch with
    | some i => some (i + 1)
    | none => if a = ch then some 0 else none

/-- The JSON repair strategy (part_003 lines 157-164): a payload that starts
with an opening bracket but does not end with a closing one is truncated to
its last closing brace (if any) and the bracket is appended. -/
def repairTruncatedArray (cleanJson : List Char) : List Char :=
  if cleanJson.head? = some '[' ∧ cleanJson.getLast? ≠ some ']' then
    match lastIndexOfCh cleanJson '\x7d' with
    | some i => cleanJson.take (i + 1) ++ [']']
    | none => cleanJson
  else cleanJson

/-- Whitespace accepted between JSON tokens. -/
def isJsonWs (c : Char) : Bool :=
  c = ' ' || c = '\t' || c = '\n' || c = '\r'

def skipWs (s : List Char) : List Char := s.dropWhile isJsonWs

/-- Decoding of a single-character JSON string escape (the `\u` form is not
modelled; inputs using it fail to parse). -/
def escapeChar : Char → Option Char
  | '"' => some '"'
  | '\\' => some '\\'
  | '/' => some '/'
  | 'b' => some '\x08'
  | 'f' => some '\x0c'
  | 'n' => some '\n'
  | 'r' => some '\r'
  | 't' => some '\t'
  | _ => none

/-- Parses the body of a JSON string after its opening quote, returning the
decoded content and the input after the closing quote. -/
def parseStringBody : List Char → Option (List Char × List Char)
  | [] => none
  | '"' :: rest => some ([], rest)
  | '\\' :: e :: rest =>
    match escapeChar e with
    | some c => (parseStringBody rest).map (fun p => (c :: p.1, p.2))
    | none => none
  | c :: rest => (parseStringBody rest).map (fun p => (c :: p.1, p.2))

def digitVal (c : Char) : ℕ := c.toNat - 48

def digitsToNat (ds : List Char) : ℕ :=
  ds.foldl (fun n c => n * 10 + digitVal c) 0

/-- Parses the digits of the fractional part of a JSON number, if present. -/
def parseFracDigits : List Char → Option (List Char × List Char)
  | '.' :: r =>
    let sp := r.span Char.isDigit
    if sp.1 = [] then none else some (sp.1, sp.2)
  | s => some ([], s)

def parseExpDigits (positive : Bool) (r : List Char) : Option (ℤ × List Char) :=
  let sp := r.span Char.isDigit
  if sp.1 = [] then none
  else
    some (if positive then (digitsToNat sp.1 : ℤ) else -(digitsToNat sp.1 : ℤ),
      sp.2)

def parseSignedExp : List Char → Option (ℤ × List Char)
  | '+' :: r => parseExpDigits true r
  | '-' :: r => parseExpDigits false r
  | s => parseExpDigits true s

/-- Parses the exponent of a JSON number, if present, as an integer. -/
def parseExpVal : List Char → Option (ℤ × List Char)
  | 'e' :: r => parseSignedExp r
  | 'E' :: r => parseSignedExp r
  | s => some (0, s)

/-- Parses a JSON number into an exact rational (mantissa and power of ten,
assembled with `mkRat`). -/
def parseNumber (s : List Char) : Option (ℚ × List Char) :=
  let signed : Bool × List Char :=
    match s with
    | '-' :: r => (true, r)
    | _ => (false, s)
  let sp := signed.2.span Char.isDigit
  if sp.1 = [] then none
  else
    match parseFracDigits sp.2 with
    | none => none
    | some (fracDs, s2) =>
      match parseExpVal s2 with
      | none => none
      | some (exp, s3) =>
        let mantNat : ℕ := digitsToNat sp.1 * 10 ^ fracDs.length + digitsToNat fracDs
        let mant : ℤ := if signed.1 then -(mantNat : ℤ) else (mantNat : ℤ)
        let e : ℤ := exp - fracDs.length
        let q : ℚ :=
          if 0 ≤ e then mkRat (mant * 10 ^ e.toNat) 1
          else mkRat mant (10 ^ (-e).toNat)
        some (q, s3)

mutual

/-- Parses one JSON value; `fuel` bounds the recursion and
`input.length + 1` always suffices. -/
def parseValue : ℕ → List Char → Option (Json × List Char)
  | 0, _ => none
  | fuel + 1, s =>
    match skipWs s with
    | '"' :: rest => (parseStringBody rest).map (fun p => (Json.str p.1, p.2))
    | '[' :: rest =>
      (match skipWs rest with
       | ']' :: r2 => some (Json.arr [], r2)
       | s2 => (parseElems fuel s2).map (fun p => (Json.arr p.1, p.2)))
    | '\x7b' :: rest =>
      (match skipWs rest with
       | '\x7d' :: r2 => some (Json.obj [], r2)
       | s2 => (parseMembers fuel s2).map (fun p => (Json.obj p.1, p.2)))
    | 't' :: 'r' :: 'u' :: 'e' :: rest => some (Json.bool true, rest)
    | 'f' :: 'a' :: 'l' :: 's' :: 'e' :: rest => some (Json.bool false, rest)
    | 'n' :: 'u' :: 'l' :: 'l' :: rest => some (Json.null, rest)
    | s2 => (parseNumber s2).map (fun p => (Json.num p.1, p.2))
termination_by structural fuel _ => fuel

/-- Parses the comma-separated elements of a non-empty JSON array, consuming
the closing bracket. -/
def parseElems : ℕ → List Char → Option (List Json × List Char)
  | 0, _ => none
  | fuel + 1, s =>
    match parseValue fuel s with
    | none => none
    | some (v, rest) =>
      match skipWs rest with
      | ',' :: r2 => (parseElems fuel r2).map (fun p => (v :: p.1, p.2))
      | ']' :: r2 => some ([v], r2)
      | _ => none
termination_by structural fuel _ => fuel

/-- Parses the members of a non-empty JSON object, consuming the closing
brace. -/
def parseMembers : ℕ → List Char → Option (List (List Char × Json) × List Char)
  | 0, _ => none
  | fuel + 1, s =>
    match skipWs s with
    | '"' :: rest =>
      (match parseStringBody rest with
       | none => none
       | some (key, r1) =>
         match skipWs r1 with
         | ':' :: r2 =>
           (match parseValue fuel r2 with
            | none => none
            | some (v, r3) =>
              match skipWs r3 with
              | ',' :: r4 =>
                (parseMembers fuel r4).map (fun p => ((key, v) :: p.1, p.2))
              | '\x7d' :: r4 => some ([(key, v)], r4)
              | _ => none)
         | _ => none)
    | _ => none
termination_by structural fuel _ => fuel

end

/-- Models `JSON.parse` (ECMAScript, restricted to the JSON grammar without
`\u` escapes): `some` on well-formed input with nothing but whitespace after
the value, `none` for a thrown `SyntaxError`. -/
def parseJson (s : List Char) : Option Json :=
  match parseValue (s.length + 1) s with
  | some (v, rest) => if skipWs rest = [] then some v else none
  | none => none

/-- Message of the `Error` thrown on a parse failure (part_003 line 169). -/
def illegibleMessage : List Char :=
  "Failed to parse the financial data. The document might be illegible.".data

/-- The robust-parsing step (part_003 lines 153-170): clean, repair, parse;
a parse failure throws the illegible message (into the enclosing catch). -/
def parseTransactions (jsonText : List Char) : ExtractResult :=
  let cleanJson := repairTruncatedArray (cleanResponseText jsonText)
  match parseJson cleanJson with
  | some v => ExtractResult.success v
  | none => ExtractResult.failure illegibleMessage

/-- Lines 141-170 of part_003: handling of the provider response text, where
`responses n` is the text payload the provider returns for the n-th request
(`[]` models a missing or empty `response.text`, both falsy in JavaScript).
The recursion models the retried call at line 147; the `retryCount < 1`
guard bounds its depth by 2, so `fuel = 2` is never exhausted from a
top-level call. -/
def handleResponseFrom (responses : ℕ → List Char) : ℕ → ℕ → ExtractResult
  | 0, _ => ExtractResult.success (Json.arr [])
  | fuel + 1, retryCount =>
    let jsonText := responses retryCount
    if jsonText = [] then
      if retryCount < 1 then handleResponseFrom responses fuel (retryCount + 1)
      else ExtractResult.success (Json.arr [])
    else parseTransactions jsonText

def handleResponseText (responses : ℕ → List Char) (retryCount : ℕ) :
    ExtractResult :=
  handleResponseFrom responses 2 retryCount

/-- The fallback `friendlyMessage` (part_003 line 176). -/
def defaultFailMessage : List Char := "Failed to process document.".data

/-- The detailed error mapping (part_003 lines 172-192): the caught message is
lower-cased and matched against fixed substrings in order; no match leaves
the fallback message. -/
def classifyExtractionError (message : List Char) : List Char :=
  let errStr := message.map Char.toLower
  if containsSub errStr "api key".data || containsSub errStr "403".data then
    "Access Denied: Invalid or Missing API Key.".data
  else if containsSub errStr "404".data || containsSub errStr "not found".data then
    "Engine Error: The selected model is not available. Please try switching between Flash and Grok/Pro.".data
  else if containsSub errStr "quota".data || containsSub errStr "429".data then
    "Traffic limit exceeded. Retrying automatically usually fixes this.".data
  else if containsSub errStr "too large".data || containsSub errStr "payload".data
      || containsSub errStr "413".data then
    "The document size exceeds the secure transmission limit (20MB encoded). Please try compressing your PDF or converting to grayscale to reduce size.".data
  else if containsSub errStr "token count".data || containsSub errStr "limit".data then
    "This document is extremely dense. We have automatically switched to High-Capacity mode, but it may still be too large. Please split the PDF.".data
  else if containsSub errStr "dependency".data || containsSub errStr "internal".data then
    "The document structure is too complex for the engine. Please try converting to an Image or creating a simpler PDF.".data
  else defaultFailMessage

/-- Line 73 of part_003: approximate decoded size in MB of a base64 payload
of the given length (`length * 0.75 / (1024 * 1024)`). -/
def approximateSizeInMB (cleanBase64Length : ℕ) : ℚ :=
  (cleanBase64Length * (75/100)) / (1024 * 1024)

def proModelName : List Char := "gemini-3-pro-preview".data

def flashModelName : List Char := "gemini-flash-latest".data

/-- Lines 66-84 of part_003: the model tier decision, from the approximate
size and the caller-selected provider. -/
def selectModelName (approxMB : ℚ) (provider : ModelProvider) : List Char :=
  if 10 < approxMB ∨ provider = ModelProvider.GEMINI_PRO
      ∨ provider = ModelProvider.GROK_BETA then
    proModelName
  else flashModelName

/-- Lines 194-197 of part_003: tier branding of the surfaced message. -/
def brandMessage (provider : ModelProvider) (modelName msg : List Char) :
    List Char :=
  if provider = ModelProvider.GROK_BETA ∨ modelName = proModelName then
    "[Pro Audit] ".data ++ msg
  else msg

/-- `extractTransactionsFromDocument` (part_003 lines 53-201), with the
external provider abstracted as the sequence of text payloads it returns,
the API key assumed configured, and `cleanBase64Length` the length of the
header-stripped base64 payload.  Network faults raised by the provider call
itself are external and outside this embedding; the modelled failure path is
the parse failure thrown at line 169 and classified at lines 172-199. -/
def extractTransactionsFromDocument (responses : ℕ → List Char)
    (cleanBase64Length : ℕ) (provider : ModelProvider) : ExtractResult :=
  let modelName := selectModelName (approximateSizeInMB cleanBase64Length) provider
  match handleResponseText responses 0 with
  | ExtractResult.success v => ExtractResult.success v
  | ExtractResult.failure msg =>
      ExtractResult.failure (brandMessage provider modelName (classifyExtractionError msg))

/-- The truncation example from the specification: one complete transaction
object followed by an incomplete second object. -/
def truncatedSample : List Char :=
  "[\x7b\"date\":\"2024-01-01\",\"description\":\"Salary\",\"amount\":500000,\"type\":\"CREDIT\"\x7d,\x7b\"date\":\"2024-01-02\",\"desc".data

/-- The JSON object for the one complete transaction of `truncatedSample`. -/
def salaryTransactionJson : Json :=
  Json.obj [("date".data, Json.str "2024-01-01".data),
            ("description".data, Json.str "Salary".data),
            ("amount".data, Json.num 500000),
            ("type".data, Json.str "CREDIT".data)]

/-- Well-formedness of a band table: non-negative rates and non-negative
finite limits.  The concrete `bands` table satisfies it. -/
def BandsWF (bs : List Band) : Prop :=
  ∀ b ∈ bs, 0 ≤ b.rate ∧ ∀ l, b.limit = some l → 0 ≤ l

lemma bands_wf : BandsWF bands := by
  intro b hb
  simp only [bands, List.mem_cons, List.not_mem_nil, or_false] at hb
  rcases hb with rfl | rfl | rfl | rfl | rfl | rfl <;>
    refine ⟨by norm_num, fun l hl => ?_⟩ <;>
    simp only [Option.some.injEq] at hl <;> first
      | (subst hl; norm_num)
      | cases hl

lemma bandsWF_tail {b : Band} {bs : List Band} (h : BandsWF (b :: bs)) :
    BandsWF bs := fun x hx => h x (List.mem_cons_of_mem b hx)

lemma bandsWF_head {b : Band} {bs : List Band} (h : BandsWF (b :: bs)) :
    0 ≤ b.rate ∧ ∀ l, b.limit = some l → 0 ≤ l :=
  h b (List.mem_cons_self b bs)

lemma bandTax_foldl (steps : List (ℚ × ℚ)) :
    ∀ a : ℚ, steps.foldl (fun t p => t + p.1 * p.2) a
      = a + (steps.map (fun p => p.1 * p.2)).sum := by
  induction steps with
  | nil => intro a; simp
  | cons p ps ih =>
    intro a
    simp only [List.foldl_cons, List.map_cons, List.sum_cons, ih]
    ring

lemma bandTax_eq_sum (steps : List (ℚ × ℚ)) :
    bandTax steps = (steps.map (fun p => p.1 * p.2)).sum := by
  simpa using bandTax_foldl steps 0

lemma runBands_nonpos {bs : List Band} {r : ℚ} (h : r ≤ 0) :
    runBands bs r = [] := by
  cases bs <;> simp [runBands, h]

lemma bandMin_nonneg {r : ℚ} (hr : 0 < r) {o : Option ℚ}
    (ho : ∀ l, o = some l → 0 ≤ l) : 0 ≤ bandMin r o := by
  cases o with
  | none => exact hr.le
  | some l => exact le_min hr.le (ho l rfl)

lemma bandMin_le {r : ℚ} (o : Option ℚ) : bandMin r o ≤ r := by
  cases o with
  | none => exact le_rfl
  | some l => exact min_le_left r l

lemma runBands_tax_nonneg :
    ∀ (bs : List Band), BandsWF bs → ∀ r : ℚ,
      0 ≤ ((runBands bs r).map (fun p => p.1 * p.2)).sum := by
  intro bs
  induction bs with
  | nil => intro _ r; simp [runBands]
  | cons b bs ih =>
    intro hwf r
    by_cases h0 : r ≤ 0
    · simp [runBands, h0]
    · push_neg at h0
      simp only [runBands, if_neg (not_le.mpr h0), List.map_cons, List.sum_cons]
      have ht : 0 ≤ bandMin r b.limit := bandMin_nonneg h0 (bandsWF_head hwf).2
      exact add_nonneg (mul_nonneg ht (bandsWF_head hwf).1) (ih (bandsWF_tail hwf) _)

lemma bandMin_mono {r1 r2 : ℚ} (h : r1 ≤ r2) (o : Option ℚ) :
    bandMin r1 o ≤ bandMin r2 o := by
  cases o with
  | none => exact h
  | some l => exact min_le_min h le_rfl

lemma bandMin_sub_mono {r1 r2 : ℚ} (h : r1 ≤ r2) (o : Option ℚ) :
    r1 - bandMin r1 o ≤ r2 - bandMin r2 o := by
  cases o with
  | none => simp [bandMin]
  | some l =>
    simp only [bandMin]
    rcases le_total r1 l with h1 | h1 <;> rcases le_total r2 l with h2 | h2 <;>
      simp [min_eq_left, min_eq_right, h1, h2] <;> linarith

lemma runBands_tax_mono :
    ∀ (bs : List Band), BandsWF bs → ∀ r1 r2 : ℚ, r1 ≤ r2 →
      ((runBands bs r1).map (fun p => p.1 * p.2)).sum
        ≤ ((runBands bs r2).map (fun p => p.1 * p.2)).sum := by
  intro bs
  induction bs with
  | nil => intro _ r1 r2 _; simp [runBands]
  | cons b bs ih =>
    intro hwf r1 r2 h12
    by_cases h1 : r1 ≤ 0
    · rw [runBands_nonpos h1]
      simpa using runBands_tax_nonneg (b :: bs) hwf r2
    · push_neg at h1
      have h2 : ¬ r2 ≤ 0 := not_le.mpr (lt_of_lt_of_le h1 h12)
      simp only [runBands, if_neg (not_le.mpr h1), if_neg h2,
        List.map_cons, List.sum_cons]
      have htm := bandMin_mono h12 b.limit
      have hsub := bandMin_sub_mono h12 b.limit
      have hrate := (bandsWF_head hwf).1
      have hrec := ih (bandsWF_tail hwf) _ _ hsub
      have hmul : bandMin r1 b.limit * b.rate ≤ bandMin r2 b.limit * b.rate :=
        mul_le_mul_of_nonneg_right htm hrate
      exact add_le_add hmul hrec

lemma runBands_amounts_sum :
    ∀ (bs : List Band) (r : ℚ), 0 ≤ r → (∃ b ∈ bs, b.limit = none) →
      ((runBands bs r).map Prod.fst).sum = r := by
  intro bs
  induction bs with
  | nil =>
    intro r _ hinf
    rcases hinf with ⟨b, hb, _⟩
    exact absurd hb (List.not_mem_nil b)
  | cons b bs ih =>
    intro r hr hinf
    by_cases h0 : r ≤ 0
    · have hz : r = 0 := le_antisymm h0 hr
      simp [runBands, h0, hz]
    · push_neg at h0
      cases hL : b.limit with
      | none =>
        simp [runBands, if_neg (not_le.mpr h0), hL, bandMin,
          runBands_nonpos (le_refl (0 : ℚ))]
      | some l =>
        have hbs : ∃ b2 ∈ bs, b2.limit = none := by
          rcases hinf with ⟨b2, hb2, hn⟩
          rcases List.mem_cons.mp hb2 with h | h
          · subst h; rw [hL] at hn; cases hn
          · exact ⟨b2, h, hn⟩
        have h1 : 0 ≤ r - min r l := by
          have := min_le_left r l; linarith
        simp only [runBands, if_neg (not_le.mpr h0), hL, bandMin,
          List.map_cons, List.sum_cons]
        rw [ih _ h1 hbs]
        ring

lemma bands_has_unbounded : ∃ b ∈ bands, b.limit = none := by
  refine ⟨⟨none, 24/100⟩, ?_, rfl⟩
  simp [bands]

lemma taxableIncome_nonneg (g : ℚ) :
    0 ≤ (calculateNigerianPIT g).taxableIncome := by
  simp only [calculateNigerianPIT]
  exact le_max_left 0 _

lemma totalTax_eq_sum (g : ℚ) :
    (calculateNigerianPIT g).totalTax
      = ((runBands bands (calculateNigerianPIT g).taxableIncome).map
          (fun p => p.1 * p.2)).sum := by
  simp only [calculateNigerianPIT]
  exact bandTax_eq_sum _

lemma taxableIncome_mono {g1 g2 : ℚ} (h : g1 ≤ g2) :
    (calculateNigerianPIT g1).taxableIncome
      ≤ (calculateNigerianPIT g2).taxableIncome := by
  simp only [calculateNigerianPIT]
  refine max_le_max le_rfl ?_
  rcases le_total (200000 : ℚ) (g1 * (1/100)) with h1 | h1 <;>
    rcases le_total (200000 : ℚ) (g2 * (1/100)) with h2 | h2
  · rw [max_eq_right h1, max_eq_right h2]; linarith
  · rw [max_eq_right h1, max_eq_left h2]; linarith
  · rw [max_eq_left h1, max_eq_right h2]; linarith
  · rw [max_eq_left h1, max_eq_left h2]; linarith

lemma handleResponseFrom_succ (responses : ℕ → List Char) (fuel rc : ℕ) :
    handleResponseFrom responses (fuel + 1) rc
      = if responses rc = [] then
          (if rc < 1 then handleResponseFrom responses fuel (rc + 1)
           else ExtractResult.success (Json.arr []))
        else parseTransactions (responses rc) := rfl

lemma handleResponseText_one (responses : ℕ → List Char) :
    handleResponseText responses 1
      = if responses 1 = [] then ExtractResult.success (Json.arr [])
        else parseTransactions (responses 1) := by
  rw [handleResponseText, show (2 : ℕ) = 1 + 1 from rfl, handleResponseFrom_succ]
  by_cases h1 : responses 1 = [] <;> simp [h1]

/-- C1: for every grossIncome ≥ 0, `calculateNigerianPIT` returns a
consolidated relief of `max(200000, 0.01 * grossIncome) + 0.20 * grossIncome`
and a taxable income of `max(0, grossIncome - consolidatedRelief)`. -/
theorem claim_C1 (g : ℚ) (hg : 0 ≤ g) :
    (calculateNigerianPIT g).consolidatedRelief
        = max 200000 (g * (1/100)) + g * (20/100)
      ∧ (calculateNigerianPIT g).taxableIncome
        = max 0 (g - (calculateNigerianPIT g).consolidatedRelief) :=
  ⟨rfl, rfl⟩

theorem claim_C1_witness :
    (0 : ℚ) ≤ 1000000
      ∧ ((calculateNigerianPIT 1000000).consolidatedRelief
            = max 200000 ((1000000 : ℚ) * (1/100)) + 1000000 * (20/100)
          ∧ (calculateNigerianPIT 1000000).taxableIncome
            = max 0 (1000000 - (calculateNigerianPIT 1000000).consolidatedRelief)) :=
  ⟨by norm_num, claim_C1 1000000 (by norm_num)⟩

/-- C2: for every taxable income produced by `calculateNigerianPIT`, the
per-band amounts consumed by the band loop sum to exactly the taxable
income (no double counting, no gap), and a taxable income landing exactly on
the first band boundary (300000) consumes only the first band. -/
theorem claim_C2 (g : ℚ) :
    ((runBands bands (calculateNigerianPIT g).taxableIncome).map Prod.fst).sum
        = (calculateNigerianPIT g).taxableIncome
      ∧ (runBands bands 300000).map Prod.fst = [(300000 : ℚ)] := by
  refine ⟨runBands_amounts_sum bands _ (taxableIncome_nonneg g)
    bands_has_unbounded, ?_⟩
  norm_num [runBands, bands, bandMin, min_def]

/-- C3: for all 0 ≤ g1 ≤ g2, the total tax at g1 is non-negative and total
tax is monotonically non-decreasing from g1 to g2. -/
theorem claim_C3 (g1 g2 : ℚ) (h1 : 0 ≤ g1) (h12 : g1 ≤ g2) :
    0 ≤ (calculateNigerianPIT g1).totalTax
      ∧ (calculateNigerianPIT g1).totalTax
        ≤ (calculateNigerianPIT g2).totalTax := by
  constructor
  · rw [totalTax_eq_sum]
    exact runBands_tax_nonneg bands bands_wf _
  · rw [totalTax_eq_sum, totalTax_eq_sum]
    exact runBands_tax_mono bands bands_wf _ _ (taxableIncome_mono h12)

theorem claim_C3_witness :
    (0 : ℚ) ≤ 200000 ∧ (200000 : ℚ) ≤ 1000000
      ∧ (0 ≤ (calculateNigerianPIT 200000).totalTax
          ∧ (calculateNigerianPIT 200000).totalTax
            ≤ (calculateNigerianPIT 1000000).totalTax) :=
  ⟨by norm_num, by norm_num, claim_C3 200000 1000000 (by norm_num) (by norm_num)⟩

/-- C4: `calculateNigerianPIT 1000000` returns a consolidated relief of
400000, taxable income 600000, total tax 54000 and effective rate 5.4. -/
theorem claim_C4 :
    (calculateNigerianPIT 1000000).consolidatedRelief = 400000
      ∧ (calculateNigerianPIT 1000000).taxableIncome = 600000
      ∧ (calculateNigerianPIT 1000000).totalTax = 54000
      ∧ (calculateNigerianPIT 1000000).effectiveRate = 5.4 := by
  refine ⟨?_, ?_, ?_, ?_⟩ <;>
    norm_num [calculateNigerianPIT, runBands, bands, bandMin, bandTax,
      max_def, min_def]

/-- C5: `calculateNigerianPIT 0` returns a total tax of 0 and, through the
`grossIncome > 0` guard on the effective-rate division, an effective rate
of 0. -/
theorem claim_C5 :
    (calculateNigerianPIT 0).totalTax = 0
      ∧ (calculateNigerianPIT 0).effectiveRate = 0 := by
  constructor <;>
    norm_num [calculateNigerianPIT, runBands, bands, bandMin, bandTax,
      max_def, min_def]

/-- C10: every negative gross income behaves like zero income: taxable
income, total tax and effective rate are all 0 and no error is raised. -/
theorem claim_C10 (g : ℚ) (hg : g < 0) :
    (calculateNigerianPIT g).taxableIncome = 0
      ∧ (calculateNigerianPIT g).totalTax = 0
      ∧ (calculateNigerianPIT g).effectiveRate = 0 := by
  have hmax : max 0 (g - (max 200000 (g * (1/100)) + g * (20/100))) = 0 := by
    apply max_eq_left
    have h200 := le_max_left (200000 : ℚ) (g * (1/100))
    linarith
  refine ⟨?_, ?_, ?_⟩
  · simpa [calculateNigerianPIT] using hmax
  · simp only [calculateNigerianPIT, hmax]
    norm_num [runBands, bands, bandTax]
  · simp only [calculateNigerianPIT]
    rw [if_neg (not_lt.mpr hg.le)]

theorem claim_C10_witness :
    (-5 : ℚ) < 0
      ∧ ((calculateNigerianPIT (-5)).taxableIncome = 0
          ∧ (calculateNigerianPIT (-5)).totalTax = 0
          ∧ (calculateNigerianPIT (-5)).effectiveRate = 0) :=
  ⟨by norm_num, claim_C10 (-5) (by norm_num)⟩

/-- C6: an empty provider text response triggers exactly one retry — the
handling of attempt 0 reduces to the handling of attempt 1, and the outcome
consults only the first two provider responses — and when the retried
response is also empty the call succeeds with the empty transaction array
rather than raising an error. -/
theorem claim_C6 (responses responses2 : ℕ → List Char) (len : ℕ)
    (p : ModelProvider) (h0 : responses 0 = []) :
    handleResponseText responses 0 = handleResponseText responses 1
      ∧ (responses 1 = [] →
          extractTransactionsFromDocument responses len p
            = ExtractResult.success (Json.arr []))
      ∧ (responses2 0 = responses 0 → responses2 1 = responses 1 →
          handleResponseText responses2 0 = handleResponseText responses 0) := by
  have hstep : ∀ r : ℕ → List Char, r 0 = [] →
      handleResponseText r 0
        = if r 1 = [] then ExtractResult.success (Json.arr [])
          else parseTransactions (r 1) := by
    intro r hr
    rw [handleResponseText, show (2 : ℕ) = 1 + 1 from rfl,
      handleResponseFrom_succ, if_pos hr, if_pos (by norm_num),
      handleResponseFrom_succ]
    by_cases h1 : r 1 = [] <;> simp [h1]
  refine ⟨?_, ?_, ?_⟩
  · rw [hstep responses h0, handleResponseText_one]
  · intro h1
    rw [extractTransactionsFromDocument, hstep responses h0, if_pos h1]
  · intro e0 e1
    rw [hstep responses2 (e0.trans h0), hstep responses h0, e1]

theorem claim_C6_witness :
    ((fun _ : ℕ => ([] : List Char)) 1 = [])
      ∧ extractTransactionsFromDocument (fun _ => []) 0 ModelProvider.GEMINI_FLASH
        = ExtractResult.success (Json.arr []) :=
  ⟨rfl, (claim_C6 (fun _ => []) (fun _ => []) 0 ModelProvider.GEMINI_FLASH
    rfl).2.1 rfl⟩

/-- C7 counterexample to the claim as stated: a provider payload that still
fails to parse after repair makes the call fail with the generic
processing-failure message, not the document-illegible message. -/
theorem claim_C7_cex :
    extractTransactionsFromDocument (fun _ => "[oops".data) 0
        ModelProvider.GEMINI_FLASH
      = ExtractResult.failure "Failed to process document.".data
    ∧ "Failed to process document.".data ≠ illegibleMessage := by
  have hmodel : selectModelName (approximateSizeInMB 0)
      ModelProvider.GEMINI_FLASH = flashModelName := by
    rw [selectModelName, if_neg]
    rintro (h | h | h)
    · norm_num [approximateSizeInMB] at h
    · cases h
    · cases h
  have hhandle : handleResponseText (fun _ => "[oops".data) 0
      = ExtractResult.failure illegibleMessage := rfl
  have hclass : classifyExtractionError illegibleMessage = defaultFailMessage := rfl
  constructor
  · rw [extractTransactionsFromDocument]
    simp only [hhandle, hclass, hmodel]
    rw [brandMessage, if_neg]
    · rfl
    · rintro (h | h)
      · cases h
      · exact absurd h (by decide)
  · decide

/-- C7 (amended): after stripping code fences and trimming, a payload opening
with a bracket but not ending with one is repaired by truncating to its last
closing brace and appending the bracket; the truncated sample from the spec
then parses, through the full call, to exactly the one complete transaction
object, discarding the incomplete trailing fragment; and when parsing still
fails after repair the parse step throws the document-illegible message,
which the enclosing error classification then replaces with the generic
processing-failure message. -/
theorem claim_C7 :
    (extractTransactionsFromDocument (fun _ => truncatedSample) 0
        ModelProvider.GEMINI_FLASH
      = ExtractResult.success (Json.arr [salaryTransactionJson]))
    ∧ (∀ c i, c.head? = some '[' → c.getLast? ≠ some ']' →
        lastIndexOfCh c '\x7d' = some i →
        repairTruncatedArray c = c.take (i + 1) ++ [']'])
    ∧ (∀ s, parseJson (repairTruncatedArray (cleanResponseText s)) = none →
        parseTransactions s = ExtractResult.failure illegibleMessage)
    ∧ classifyExtractionError illegibleMessage = defaultFailMessage := by
  refine ⟨rfl, ?_, ?_, rfl⟩
  · intro c i h1 h2 h3
    simp [repairTruncatedArray, h1, h2, h3]
  · intro s hs
    simp [parseTransactions, hs]

theorem claim_C7_witness :
    ("[\x7b\x7d".data.head? = some '[')
      ∧ ("[\x7b\x7d".data.getLast? ≠ some ']')
      ∧ lastIndexOfCh "[\x7b\x7d".data '\x7d' = some 2
      ∧ repairTruncatedArray "[\x7b\x7d".data = "[\x7b\x7d".data.take 3 ++ [']'] :=
  ⟨rfl, by decide, rfl, claim_C7.2.1 "[\x7b\x7d".data 2 rfl (by decide) rfl⟩

/-- C8 counterexample to the claim as stated: an error text containing 429
together with an earlier-matched signature (api key) is mapped to the
access-denied message, not the rate-limited message. -/
theorem claim_C8_cex :
    containsSub ("API key quota: 429".data.map Char.toLower) "429".data = true
      ∧ classifyExtractionError "API key quota: 429".data
        = "Access Denied: Invalid or Missing API Key.".data
      ∧ "Access Denied: Invalid or Missing API Key.".data
        ≠ "Traffic limit exceeded. Retrying automatically usually fixes this.".data :=
  ⟨by decide, rfl, by decide⟩

/-- C8 (amended): a provider error whose lowercased text contains 429 and
contains none of the earlier-matched signatures (api key, 403, 404,
not found) is mapped to the rate-limited traffic message, in any casing and
with any other surrounding text; when an earlier signature is present the
earlier category wins instead. -/
theorem claim_C8 (message : List Char)
    (h429 : containsSub (message.map Char.toLower) "429".data = true)
    (hak : containsSub (message.map Char.toLower) "api key".data = false)
    (h403 : containsSub (message.map Char.toLower) "403".data = false)
    (h404 : containsSub (message.map Char.toLower) "404".data = false)
    (hnf : containsSub (message.map Char.toLower) "not found".data = false) :
    classifyExtractionError message
      = "Traffic limit exceeded. Retrying automatically usually fixes this.".data := by
  simp [classifyExtractionError, h429, hak, h403, h404, hnf]

theorem claim_C8_witness :
    containsSub ("Error 429".data.map Char.toLower) "429".data = true
      ∧ classifyExtractionError "Error 429".data
        = "Traffic limit exceeded. Retrying automatically usually fixes this.".data :=
  ⟨by decide, claim_C8 "Error 429".data (by decide) (by decide) (by decide)
    (by decide) (by decide)⟩

/-- C9: a payload above the 10MB approximate-size threshold always selects
the high-capacity model, even for a fast-tier request; below it the
high-capacity model is selected exactly for an explicit Pro or Grok request;
and the decision always yields one of the two model names, as a function of
size and provider only. -/
theorem claim_C9 (len : ℕ) (p : ModelProvider) :
    (10 < approximateSizeInMB len →
        selectModelName (approximateSizeInMB len) p = proModelName)
      ∧ (¬ 10 < approximateSizeInMB len →
          (selectModelName (approximateSizeInMB len) p = proModelName
            ↔ p = ModelProvider.GEMINI_PRO ∨ p = ModelProvider.GROK_BETA))
      ∧ (selectModelName (approximateSizeInMB len) p = proModelName
          ∨ selectModelName (approximateSizeInMB len) p = flashModelName) := by
  have hne : flashModelName ≠ proModelName := by decide
  refine ⟨?_, ?_, ?_⟩
  · intro h
    simp [selectModelName, h]
  · intro h
    constructor
    · intro hsel
      by_contra hp
      push_neg at hp
      rw [selectModelName, if_neg] at hsel
      · exact hne hsel
      · rintro (hh | hh | hh)
        · exact h hh
        · exact hp.1 hh
        · exact hp.2 hh
    · rintro (hp | hp) <;> simp [selectModelName, hp]
  · rw [selectModelName]
    split_ifs <;> simp

theorem claim_C9_witness :
    10 < approximateSizeInMB 14680064
      ∧ selectModelName (approximateSizeInMB 14680064) ModelProvider.GEMINI_FLASH
        = proModelName :=
  ⟨by norm_num [approximateSizeInMB],
    (claim_C9 14680064 ModelProvider.GEMINI_FLASH).1
      (by norm_num [approximateSizeInMB])⟩

end NigeriaTax
